import Mathlib

/- Shallow embedding of the progress-tracking / unique-blessing-selection core
   of src/script.js (the BlessingManager and AppInitializer objects):
   paginated corpus loading, random unseen selection, localStorage
   persistence, and the bounded start-up retry loop.  Pure JS state is
   modelled by explicit state passing; `Math.random` draws are supplied as an
   explicit natural-number parameter; fallible persistence reads are an
   `Option`/`Except` value. -/

/-- A corpus item, `{ text, category }` as built by `loadAllBlessings`. -/
structure Blessing where
  text : String
  category : String
deriving DecidableEq, Repr

/-- Parsed JSON values: the possible results of `JSON.parse` applied to the
persisted record stored under `1024_blessing_progress`. -/
inductive JsonValue where
  | null : JsonValue
  | bool (b : Bool) : JsonValue
  | num (q : ℚ) : JsonValue
  | str (s : String) : JsonValue
  | arr (elems : List JsonValue) : JsonValue
  | obj (fields : List (String × JsonValue)) : JsonValue

/-- JS `SameValueZero` equality, used by `Set.has`/`Set.add`, restricted to
values obtained from `JSON.parse`.  Primitives compare structurally; arrays
and objects produced by `JSON.parse` are fresh references, so two of them are
never `SameValueZero`-equal. -/
def jsSameValueZero : JsonValue → JsonValue → Bool
  | .null, .null => true
  | .bool a, .bool b => a == b
  | .num a, .num b => a == b
  | .str a, .str b => a == b
  | _, _ => false

/-- Model of `Set.prototype.has`: the seen set `displayedBlessings` is modelled as its
insertion-ordered element list (no duplicates are ever inserted). -/
def jsSetHas (xs : List JsonValue) (v : JsonValue) : Bool :=
  xs.any (fun e => jsSameValueZero e v)

/-- Model of `Set.prototype.add`: append unless an equal element is present. -/
def jsSetAdd (xs : List JsonValue) (v : JsonValue) : List JsonValue :=
  if jsSetHas xs v then xs else xs ++ [v]

/-- Model of `new Set(list)`: insert the elements in order, skipping duplicates. -/
def jsSetOfList (xs : List JsonValue) : List JsonValue :=
  xs.foldl jsSetAdd []

/-- Membership test `this.displayedBlessings.has(blessing.text)` for of a text. -/
def seenHasText (seen : List JsonValue) (t : String) : Bool :=
  jsSetHas seen (.str t)

/-- The mutable application state: the fields of `BlessingManager` that the
core logic reads or writes, plus `PageManager.clickCount` (saved and restored
together with them by the persistence routines). -/
structure AppState where
  displayedBlessings : List JsonValue
  currentBlessing : Option Blessing
  allBlessings : List Blessing
  loadedBlessings : List Blessing
  pageSize : Nat
  currentPage : Nat
  clickCount : Nat

/-- The localStorage slot for key `1024_blessing_progress`: absent, or
present but malformed JSON (`JSON.parse` throws), or a parsed value. -/
abbrev Store := Option (Except Unit JsonValue)

/-- Model of `loadNextPage()` (script.js lines 200-210): append the slice
`allBlessings[startIndex, endIndex)` where
`endIndex = min(startIndex + pageSize, allBlessings.length)`, then increment
the page cursor (unconditionally). -/
def loadNextPage (s : AppState) : AppState :=
  let startIndex := s.currentPage * s.pageSize
  let endIndex := min (startIndex + s.pageSize) s.allBlessings.length
  { s with
      loadedBlessings :=
        s.loadedBlessings ++ (s.allBlessings.drop startIndex).take (endIndex - startIndex),
      currentPage := s.currentPage + 1 }

/-- Model of `getRandomUnDisplayedBlessing()` (script.js lines 617-655), with explicit
fuel for the self-call at line 648 (the JS recursion; shown below to be
unreachable).  The random draw `Math.floor(Math.random() * n)`, which ranges
exactly over `0 .. n-1`, is supplied as `r` and reduced `mod n`, so every
possible index is realised by some `r`. -/
def getRandomUnDisplayedBlessingAux :
    Nat → AppState → Nat → Option Blessing × AppState
  | 0, s, _ => (none, s)
  | fuel + 1, s, r =>
    let loadedUnDisplayed :=
      s.loadedBlessings.filter (fun b => ! seenHasText s.displayedBlessings b.text)
    if loadedUnDisplayed.length < 10 ∧
        s.currentPage * s.pageSize < s.allBlessings.length then
      let s1 := loadNextPage s
      let updatedUnDisplayed :=
        s1.loadedBlessings.filter (fun b => ! seenHasText s1.displayedBlessings b.text)
      if updatedUnDisplayed.length = 0 then (none, s1)
      else (updatedUnDisplayed.get? (r % updatedUnDisplayed.length), s1)
    else if loadedUnDisplayed.length = 0 then
      if s.allBlessings.length ≤ s.displayedBlessings.length then (none, s)
      else if s.currentPage * s.pageSize < s.allBlessings.length then
        getRandomUnDisplayedBlessingAux fuel (loadNextPage s) r
      else (none, s)
    else (loadedUnDisplayed.get? (r % loadedUnDisplayed.length), s)

/-- The function `getRandomUnDisplayedBlessing` with enough fuel for every terminating JS
run (each recursive call increments the cursor under the guard
`currentPage * pageSize < allBlessings.length`). -/
def getRandomUnDisplayedBlessing (s : AppState) (r : Nat) :
    Option Blessing × AppState :=
  getRandomUnDisplayedBlessingAux (s.allBlessings.length + 1) s r

/-- The JSON record written by `saveProgress()` (script.js lines 44-58). -/
def progressJson (s : AppState) (now : ℚ) : JsonValue :=
  .obj [("displayedBlessings", .arr s.displayedBlessings),
        ("currentPage", .num s.currentPage),
        ("clickCount", .num s.clickCount),
        ("timestamp", .num now)]

/-- Model of `saveProgress()`: serialize the current progress under the storage key.
(The quota-exceeded catch branch only logs; the store write is modelled as
succeeding.) -/
def saveProgress (s : AppState) (now : ℚ) : Store :=
  some (.ok (progressJson s now))

/-- Model of `clearProgress()` (script.js lines 101-109): remove the persisted record. -/
def clearProgress (_store : Store) : Store := none

/-- Model of `showBlessing(specificBlessing)` (script.js lines 661-746), state effects
only (DOM updates dropped): pick a random unseen item when no specific one is
given, validate it, record it as current, mark its text seen, bump the click
counter, and save. -/
def showBlessing (s : AppState) (store : Store) (now : ℚ)
    (specific : Option Blessing) (r : Nat) : AppState × Store :=
  let picked : Option Blessing × AppState :=
    match specific with
    | some b => (some b, s)
    | none => getRandomUnDisplayedBlessing s r
  match picked with
  | (none, s1) => (s1, store)      -- showCompletion(): no further state change
  | (some b, s1) =>
    if b.text = "" ∨ b.category = "" then (s1, store)  -- throw, caught locally
    else
      let s2 := { s1 with
          currentBlessing := some b,
          displayedBlessings := jsSetAdd s1.displayedBlessings (.str b.text),
          clickCount := s1.clickCount + 1 }
      (s2, saveProgress s2 now)

/-- Model of `showSpecificBlessing(index)` (script.js lines 336-350): fetch the corpus
item at `index`; if no loaded item has its text, append it to the loaded
window; display it via `showBlessing`; then add the numeric `index` (not the
text) to `displayedBlessings` and save. -/
def showSpecificBlessing (s : AppState) (store : Store) (now : ℚ)
    (index : Nat) (r : Nat) : AppState × Store :=
  match s.allBlessings.get? index with
  | none => (s, store)
  | some blessing =>
    let s1 :=
      if s.loadedBlessings.any (fun b => b.text == blessing.text) then s
      else { s with loadedBlessings := s.loadedBlessings ++ [blessing] }
    let after := showBlessing s1 store now (some blessing) r
    let s3 := { after.1 with
        displayedBlessings := jsSetAdd after.1.displayedBlessings (.num index) }
    (s3, saveProgress s3 now)

/-- Model of `reset()` (script.js lines 842-870), state effects only: clear the seen
set and current item, empty the loaded window, zero the page cursor, reload
the first page, clear the persisted progress, and zero the click count.  The
corpus `allBlessings` is not touched (no reshuffle). -/
def reset (s : AppState) (_store : Store) : AppState × Store :=
  let s1 := { s with
      displayedBlessings := [],
      currentBlessing := none,
      loadedBlessings := [],
      currentPage := 0 }
  let s2 := loadNextPage s1
  ({ s2 with clickCount := 0 }, none)

/-- Truthiness of a parsed JSON value (`undefined` cannot occur in JSON). -/
def jsFalsy : JsonValue → Bool
  | .null => true
  | .bool b => !b
  | .num q => q == 0
  | .str s => s == ""
  | _ => false

/-- The validity test of `loadProgress` (script.js line 71):
`!progress || typeof progress !== 'object'`.  Arrays pass (`typeof` of an
array is `'object'`); `null` is falsy; booleans, numbers and strings have a
different `typeof`. -/
def jsNonObjectPayload : JsonValue → Bool
  | .obj _ => false
  | .arr _ => false
  | _ => true

/-- Property read `value.key` on a parsed JSON value.  On objects, a
duplicate key from `JSON.parse` keeps the last occurrence, hence the fold;
on every other value the named property is `undefined` (`none`). -/
def jsGetField : JsonValue → String → Option JsonValue
  | .obj fields, key =>
      fields.foldl (fun acc kv => if kv.1 = key then some kv.2 else acc) none
  | _, _ => none

/-- A JS number other than NaN: finite values idealized as exact rationals
(as everywhere in this model, e.g. `JsonValue.num`; float64 rounding and
overflow to Infinity at about 1e309 are outside the model), plus the two
infinities, which `Number("Infinity")` / `Number("-Infinity")` produce and
which the expiry comparison treats unlike finite values.  NaN itself is the
`none` of `Option JsNumber`. -/
inductive JsNumber where
  | finite (q : ℚ) : JsNumber
  | posInf : JsNumber
  | negInf : JsNumber
deriving DecidableEq, Repr

/-- The characters `Number(string)` strips before parsing: ECMAScript
WhiteSpace (TAB, VT, FF, SP, NBSP, BOM and the Unicode Zs category) and
LineTerminator (LF, CR, LS, PS). -/
def jsStrWhiteSpace (c : Char) : Bool :=
  c == ' ' || c == '\t' || c == '\n' || c == '\r' ||
  c.toNat == 0x0B || c.toNat == 0x0C || c.toNat == 0xA0 ||
  c.toNat == 0xFEFF || c.toNat == 0x1680 ||
  (0x2000 ≤ c.toNat && c.toNat ≤ 0x200A) ||
  c.toNat == 0x2028 || c.toNat == 0x2029 || c.toNat == 0x202F ||
  c.toNat == 0x205F || c.toNat == 0x3000

/-- Value of a run of decimal digits. -/
def digitsToNat (ds : List Char) : Nat :=
  ds.foldl (fun a c => a * 10 + (c.toNat - 48)) 0

/-- An optional leading `+` or `-`. -/
def parseSign : List Char → Int × List Char
  | '+' :: rest => (1, rest)
  | '-' :: rest => (-1, rest)
  | cs => (1, cs)

/-- The `ExponentPart?` tail of a decimal literal: the remaining characters
must be empty or exactly `e`/`E`, an optional sign, and a non-empty digit
run; anything else makes the whole literal NaN. -/
def parseExponent : List Char → Option Int
  | [] => some 0
  | c :: rest =>
    if c == 'e' || c == 'E' then
      let signed := parseSign rest
      let ds := signed.2.takeWhile Char.isDigit
      let rest2 := signed.2.dropWhile Char.isDigit
      if ds.isEmpty || !rest2.isEmpty then none
      else some (signed.1 * (digitsToNat ds : Int))
    else none

/-- An unsigned `StrUnsignedDecimalLiteral`:
`Digits . Digits? ExponentPart?`, `. Digits ExponentPart?`, or
`Digits ExponentPart?`. -/
def parseDecimal (cs : List Char) : Option ℚ :=
  let ip := cs.takeWhile Char.isDigit
  let rest := cs.dropWhile Char.isDigit
  match rest with
  | '.' :: rest2 =>
    let fp := rest2.takeWhile Char.isDigit
    let rest3 := rest2.dropWhile Char.isDigit
    if ip.isEmpty && fp.isEmpty then none
    else
      (parseExponent rest3).map (fun e =>
        ((digitsToNat ip : ℚ) + (digitsToNat fp : ℚ) / (10 : ℚ) ^ fp.length) *
          (10 : ℚ) ^ e)
  | _ =>
    if ip.isEmpty then none
    else (parseExponent rest).map (fun e => (digitsToNat ip : ℚ) * (10 : ℚ) ^ e)

def hexDigitVal (c : Char) : Option Nat :=
  if '0' ≤ c ∧ c ≤ '9' then some (c.toNat - 48)
  else if 'a' ≤ c ∧ c ≤ 'f' then some (c.toNat - 87)
  else if 'A' ≤ c ∧ c ≤ 'F' then some (c.toNat - 55)
  else none

def octDigitVal (c : Char) : Option Nat :=
  if '0' ≤ c ∧ c ≤ '7' then some (c.toNat - 48) else none

def binDigitVal (c : Char) : Option Nat :=
  if c == '0' then some 0 else if c == '1' then some 1 else none

/-- A non-empty all-digit literal in the given base (`0x`/`0o`/`0b` bodies;
no sign, fraction or exponent is allowed there). -/
def parseRadix (base : Nat) (digitVal : Char → Option Nat)
    (cs : List Char) : Option ℚ :=
  if cs.isEmpty then none
  else
    (cs.foldl
        (fun acc c =>
          match acc, digitVal c with
          | some a, some d => some (a * base + d)
          | _, _ => none)
        (some 0)).map (fun n => (n : ℚ))

/-- A `StrDecimalLiteral`: optional sign followed by `Infinity` or an
unsigned decimal literal. -/
def parseSignedNumber (cs : List Char) : Option JsNumber :=
  let signed := parseSign cs
  if signed.2 == ['I', 'n', 'f', 'i', 'n', 'i', 't', 'y'] then
    some (if signed.1 = 1 then .posInf else .negInf)
  else
    (parseDecimal signed.2).map (fun q => .finite ((signed.1 : ℚ) * q))

/-- JS `Number(string)` (the ECMAScript `StringNumericLiteral` grammar):
whitespace is trimmed, an empty remainder is 0, `0x`/`0o`/`0b` prefixes give
unsigned hex/octal/binary integers, and otherwise an optionally signed
decimal literal (with fraction, exponent, or `Infinity`) is parsed; any
other string is NaN (`none`). -/
def jsStringToNumber (s : String) : Option JsNumber :=
  let cs := ((s.toList.dropWhile jsStrWhiteSpace).reverse.dropWhile
      jsStrWhiteSpace).reverse
  match cs with
  | [] => some (.finite 0)
  | '0' :: c :: rest =>
    if c == 'x' || c == 'X' then (parseRadix 16 hexDigitVal rest).map .finite
    else if c == 'o' || c == 'O' then (parseRadix 8 octDigitVal rest).map .finite
    else if c == 'b' || c == 'B' then (parseRadix 2 binDigitVal rest).map .finite
    else parseSignedNumber cs
  | _ => parseSignedNumber cs

/-- JS `ToNumber` on a parsed JSON value, as used by the subtraction
`Date.now() - progress.timestamp`; `none` stands for NaN.  An array is
coerced through its string form (`join(",")` of its elements): the empty
array gives `""` hence 0, a singleton gives the string form of its element
— `null` renders empty (0), a number round-trips (JS number-to-string
conversion is exact in that sense), a string stays itself, a nested array
recurses, and a boolean or object renders as `"true"`/`"false"`/
`"[object Object]"`, which are NaN — and any array of two or more elements
contains the `,` separator and is NaN, as is a plain object. -/
def jsToNumber : JsonValue → Option JsNumber
  | .null => some (.finite 0)
  | .bool b => some (.finite (if b then 1 else 0))
  | .num q => some (.finite q)
  | .str s => jsStringToNumber s
  | .arr [] => some (.finite 0)
  | .arr [.null] => some (.finite 0)
  | .arr [.num q] => some (.finite q)
  | .arr [.str s] => jsStringToNumber s
  | .arr [.arr ys] => jsToNumber (.arr ys)
  | .arr [_] => none
  | .arr _ => none
  | .obj _ => none

/-- Subtraction `Date.now() - t`: `Date.now()` is a finite number. -/
def jsSubFromFinite (now : ℚ) : JsNumber → JsNumber
  | .finite t => .finite (now - t)
  | .posInf => .negInf
  | .negInf => .posInf

/-- Division of a JS number by a positive finite constant. -/
def jsDivByPos (x : JsNumber) (d : ℚ) : JsNumber :=
  match x with
  | .finite q => .finite (q / d)
  | .posInf => .posInf
  | .negInf => .negInf

/-- The comparison `a < x` on a non-NaN JS number. -/
def jsNumberLt (a : ℚ) : JsNumber → Bool
  | .finite q => decide (a < q)
  | .posInf => true
  | .negInf => false

/-- The quantity `(Date.now() - progress.timestamp) / (1000 * 60 * 60 * 24)`, with a
missing field (`undefined`) or non-coercible value giving NaN (`none`). -/
def daysPassedOpt (now : ℚ) : Option JsonValue → Option JsNumber
  | none => none
  | some v =>
    (jsToNumber v).map (fun t =>
      jsDivByPos (jsSubFromFinite now t) (1000 * 60 * 60 * 24))

/-- The expiry test `daysPassed > 7` (script.js line 77).  Every comparison
with NaN is false, so a record without a numeric timestamp never expires. -/
def isExpired (now : ℚ) (tsField : Option JsonValue) : Bool :=
  match daysPassedOpt now tsField with
  | none => false
  | some d => jsNumberLt 7 d

/-- Model of `new Set(progress.displayedBlessings || [])` (script.js line 84):
`none` models the `TypeError` thrown on a non-iterable truthy value (caught
by the surrounding `try`, which then clears the progress).  A falsy field
yields the empty set; strings iterate per character. -/
def restoreSeen : Option JsonValue → Option (List JsonValue)
  | none => some []
  | some v =>
    if jsFalsy v then some []
    else
      match v with
      | .arr xs => some (jsSetOfList xs)
      | .str s => some (jsSetOfList (s.toList.map (fun c => .str (String.mk [c]))))
      | _ => none

/-- Restore of a numeric field via `progress.field || 0` (script.js lines
85-86).  Every record the application itself writes holds a natural number
here; the model maps any other value (which `|| 0` would pass through when
truthy) to 0. -/
def restoreNat : Option JsonValue → Nat
  | some (.num q) => if q.den = 1 ∧ 0 ≤ q.num then q.num.toNat else 0
  | _ => 0

/-- Model of `loadProgress()` (script.js lines 64-95): absent record — nothing
happens; malformed JSON, invalid payload, or a restore `TypeError` — state
untouched and the store cleared (catch branch); expired record — state
untouched and the store cleared; otherwise the seen set, page cursor and
click count are restored from the record's fields. -/
def loadProgress (s : AppState) (store : Store) (now : ℚ) : AppState × Store :=
  match store with
  | none => (s, store)
  | some (.error _) => (s, none)
  | some (.ok progress) =>
    if jsNonObjectPayload progress then (s, none)
    else if isExpired now (jsGetField progress "timestamp") then (s, none)
    else
      match restoreSeen (jsGetField progress "displayedBlessings") with
      | none => (s, none)
      | some seen =>
        ({ s with
            displayedBlessings := seen,
            currentPage := restoreNat (jsGetField progress "currentPage"),
            clickCount := restoreNat (jsGetField progress "clickCount") },
         store)

/-- Outcome of `retryOperation` (script.js lines 1203-1224): the operation's
value, the operation's rethrown error, the thrown network-unavailability
error, or the `undefined` fall-through when `maxRetries < 1`. -/
inductive RetryResult (α ε : Type) where
  | ok (a : α) : RetryResult α ε
  | opError (e : ε) : RetryResult α ε
  | networkError : RetryResult α ε
  | fellThrough : RetryResult α ε
deriving DecidableEq, Repr

/-- The loop body of `retryOperation`, from attempt number `attempt` on.
`op k` is the outcome of the `k`-th invocation of the operation, `online k`
the reachability probe after a failed attempt `k`.  Returns the outcome, the
number of invocations performed, and the list of delays slept (in order). -/
def retryOperationAux {α ε : Type} (op : Nat → Except ε α) (online : Nat → Bool)
    (maxRetries delay attempt : Nat) : RetryResult α ε × Nat × List Nat :=
  if _h : maxRetries < attempt then (.fellThrough, 0, [])
  else
    match op attempt with
    | .ok a => (.ok a, 1, [])
    | .error e =>
      if attempt = maxRetries then (.opError e, 1, [])
      else if online attempt = false then (.networkError, 1, [])
      else
        let rest := retryOperationAux op online maxRetries delay (attempt + 1)
        (rest.1, rest.2.1 + 1, delay * attempt :: rest.2.2)
termination_by maxRetries + 1 - attempt
decreasing_by omega

/-- Model of `retryOperation(operation, maxRetries, delay)`: the loop starts at
attempt 1. -/
def retryOperation {α ε : Type} (op : Nat → Except ε α) (online : Nat → Bool)
    (maxRetries delay : Nat) : RetryResult α ε × Nat × List Nat :=
  retryOperationAux op online maxRetries delay 1

/- ------------------------------------------------------------------ -/
/- Helper lemmas about the embedded operations.                        -/
/- ------------------------------------------------------------------ -/

@[simp] theorem loadNextPage_displayedBlessings (s : AppState) :
    (loadNextPage s).displayedBlessings = s.displayedBlessings := rfl

@[simp] theorem loadNextPage_allBlessings (s : AppState) :
    (loadNextPage s).allBlessings = s.allBlessings := rfl

@[simp] theorem loadNextPage_pageSize (s : AppState) :
    (loadNextPage s).pageSize = s.pageSize := rfl

@[simp] theorem loadNextPage_clickCount (s : AppState) :
    (loadNextPage s).clickCount = s.clickCount := rfl

@[simp] theorem loadNextPage_currentBlessing (s : AppState) :
    (loadNextPage s).currentBlessing = s.currentBlessing := rfl

@[simp] theorem loadNextPage_currentPage (s : AppState) :
    (loadNextPage s).currentPage = s.currentPage + 1 := rfl

theorem loadNextPage_loadedBlessings (s : AppState) :
    (loadNextPage s).loadedBlessings =
      s.loadedBlessings ++
        (s.allBlessings.drop (s.currentPage * s.pageSize)).take
          (min (s.currentPage * s.pageSize + s.pageSize) s.allBlessings.length -
            s.currentPage * s.pageSize) := rfl

/-- The recursive self-call in `getRandomUnDisplayedBlessing` is dead code:
it sits in the branch where the loaded window has no unseen item, which is
only reached when no further pages remain, contradicting the guard of the
self-call.  Hence the fuel never matters beyond one step. -/
theorem getRandomUnDisplayedBlessingAux_succ (fuel : Nat) (s : AppState) (r : Nat) :
    getRandomUnDisplayedBlessingAux (fuel + 1) s r =
      getRandomUnDisplayedBlessingAux 1 s r := by
  simp only [getRandomUnDisplayedBlessingAux]
  split_ifs <;> first | rfl | (exfalso; omega)

theorem getRandomUnDisplayedBlessing_eq_one (s : AppState) (r : Nat) :
    getRandomUnDisplayedBlessing s r = getRandomUnDisplayedBlessingAux 1 s r :=
  getRandomUnDisplayedBlessingAux_succ _ s r

/-- The state coming out of a pick is either unchanged or has exactly one
more page loaded. -/
theorem pick_state (s : AppState) (r : Nat) :
    (getRandomUnDisplayedBlessing s r).2 = s ∨
      (getRandomUnDisplayedBlessing s r).2 = loadNextPage s := by
  rw [getRandomUnDisplayedBlessing_eq_one]
  simp only [getRandomUnDisplayedBlessingAux]
  split_ifs <;> first | (left; rfl) | (right; rfl)

theorem pick_displayedBlessings (s : AppState) (r : Nat) :
    (getRandomUnDisplayedBlessing s r).2.displayedBlessings =
      s.displayedBlessings := by
  rcases pick_state s r with h | h <;> rw [h] <;> simp

theorem pick_allBlessings (s : AppState) (r : Nat) :
    (getRandomUnDisplayedBlessing s r).2.allBlessings = s.allBlessings := by
  rcases pick_state s r with h | h <;> rw [h] <;> simp

theorem pick_pageSize (s : AppState) (r : Nat) :
    (getRandomUnDisplayedBlessing s r).2.pageSize = s.pageSize := by
  rcases pick_state s r with h | h <;> rw [h] <;> simp

theorem pick_clickCount (s : AppState) (r : Nat) :
    (getRandomUnDisplayedBlessing s r).2.clickCount = s.clickCount := by
  rcases pick_state s r with h | h <;> rw [h] <;> simp

theorem pick_currentBlessing (s : AppState) (r : Nat) :
    (getRandomUnDisplayedBlessing s r).2.currentBlessing =
      s.currentBlessing := by
  rcases pick_state s r with h | h <;> rw [h] <;> simp

/-- Every item a pick returns has a text that is not in the seen set, and
lies in the (possibly extended) loaded window of the resulting state. -/
theorem pick_some_unseen (s : AppState) (r : Nat) (b : Blessing)
    (h : (getRandomUnDisplayedBlessing s r).1 = some b) :
    seenHasText s.displayedBlessings b.text = false ∧
      b ∈ (getRandomUnDisplayedBlessing s r).2.loadedBlessings := by
  rw [getRandomUnDisplayedBlessing_eq_one] at h ⊢
  simp only [getRandomUnDisplayedBlessingAux, loadNextPage_displayedBlessings] at h ⊢
  split_ifs at h ⊢ <;>
    first
      | (have hf := List.mem_filter.mp (List.getElem?_mem h)
         exact ⟨by simpa using hf.2, hf.1⟩)
      | (have hf := List.mem_filter.mp (List.get?_mem h)
         exact ⟨by simpa using hf.2, hf.1⟩)
      | simp at h

/-- A pick returns `null` only when the filtered loaded window of the
resulting state is empty, or the seen set already has at least as many
entries as the corpus — never because further unloaded pages were skipped
after more than one page-load. -/
theorem pick_none (s : AppState) (r : Nat)
    (h : (getRandomUnDisplayedBlessing s r).1 = none) :
    (getRandomUnDisplayedBlessing s r).2.loadedBlessings.filter
        (fun b => ! seenHasText s.displayedBlessings b.text) = [] ∨
      s.allBlessings.length ≤ s.displayedBlessings.length := by
  rw [getRandomUnDisplayedBlessing_eq_one] at h ⊢
  simp only [getRandomUnDisplayedBlessingAux, loadNextPage_displayedBlessings] at h ⊢
  split_ifs at h ⊢
  all_goals try (left; exact List.length_eq_zero.mp (by assumption))
  all_goals try (right; assumption)
  all_goals try (exfalso; omega)
  all_goals
    exfalso
    have hlen := List.get?_eq_none.mp (show List.get? _ _ = none from h)
    have hmod := Nat.mod_lt r (Nat.pos_of_ne_zero (by assumption))
    omega

/-- With an empty seen set, every loaded item is a possible pick: the draw
equal to the item's index in the candidate list returns exactly it. -/
theorem pick_mem_of_no_seen (s : AppState) (b : Blessing)
    (hseen : s.displayedBlessings = []) (hb : b ∈ s.loadedBlessings) :
    ∃ r : Nat, (getRandomUnDisplayedBlessing s r).1 = some b := by
  have hfilter : ∀ l : List Blessing,
      l.filter (fun x => ! seenHasText s.displayedBlessings x.text) = l := by
    intro l
    rw [hseen]
    simp [seenHasText, jsSetHas]
  by_cases hc : s.loadedBlessings.length < 10 ∧
      s.currentPage * s.pageSize < s.allBlessings.length
  · have hb1 : b ∈ (loadNextPage s).loadedBlessings := by
      rw [loadNextPage_loadedBlessings]
      exact List.mem_append_left _ hb
    obtain ⟨⟨j, hj⟩, hget⟩ := List.mem_iff_get.mp hb1
    refine ⟨j, ?_⟩
    rw [getRandomUnDisplayedBlessing_eq_one]
    simp only [getRandomUnDisplayedBlessingAux, loadNextPage_displayedBlessings, hfilter]
    rw [if_pos hc,
        if_neg (by have := List.length_pos.mpr (List.ne_nil_of_mem hb1); omega),
        Nat.mod_eq_of_lt hj, List.get?_eq_get hj]
    exact congrArg some hget
  · obtain ⟨⟨j, hj⟩, hget⟩ := List.mem_iff_get.mp hb
    refine ⟨j, ?_⟩
    rw [getRandomUnDisplayedBlessing_eq_one]
    simp only [getRandomUnDisplayedBlessingAux, loadNextPage_displayedBlessings, hfilter]
    rw [if_neg hc,
        if_neg (by have := List.length_pos.mpr (List.ne_nil_of_mem hb); omega),
        Nat.mod_eq_of_lt hj, List.get?_eq_get hj]
    exact congrArg some hget

theorem jsSameValueZero_str_self (t : String) :
    jsSameValueZero (.str t) (.str t) = true := by
  simp [jsSameValueZero]

/-- Adding a value to the modelled set makes `has` answer true for it
(for values that are `SameValueZero`-equal to themselves). -/
theorem jsSetHas_jsSetAdd_self (xs : List JsonValue) (v : JsonValue)
    (hv : jsSameValueZero v v = true) :
    jsSetHas (jsSetAdd xs v) v = true := by
  unfold jsSetAdd
  split_ifs with h
  · exact h
  · simp [jsSetHas, hv]

/-- Adding to a set never removes a member. -/
theorem jsSetHas_jsSetAdd_mono (xs : List JsonValue) (v w : JsonValue)
    (h : jsSetHas xs v = true) :
    jsSetHas (jsSetAdd xs w) v = true := by
  unfold jsSetAdd
  split_ifs
  · exact h
  · simp only [jsSetHas, List.any_append] at h ⊢
    simp [h]

theorem restoreNat_natCast (n : Nat) :
    restoreNat (some (.num (n : ℚ))) = n := by
  simp [restoreNat, Rat.den_natCast, Rat.num_natCast]

theorem jsGetField_progressJson_timestamp (s : AppState) (now : ℚ) :
    jsGetField (progressJson s now) "timestamp" = some (.num now) := rfl

theorem jsGetField_progressJson_displayed (s : AppState) (now : ℚ) :
    jsGetField (progressJson s now) "displayedBlessings" =
      some (.arr s.displayedBlessings) := rfl

theorem jsGetField_progressJson_currentPage (s : AppState) (now : ℚ) :
    jsGetField (progressJson s now) "currentPage" =
      some (.num (s.currentPage : ℚ)) := rfl

theorem jsGetField_progressJson_clickCount (s : AppState) (now : ℚ) :
    jsGetField (progressJson s now) "clickCount" =
      some (.num (s.clickCount : ℚ)) := rfl

/- ------------------------------------------------------------------ -/
/- Claim theorems.                                                     -/
/- ------------------------------------------------------------------ -/

/-- C4: `loadProgress` treats malformed JSON, non-object payloads, and
records whose timestamp is more than 7 days old alike: the in-memory state
is left untouched (so it keeps its reset defaults: empty seen set, cursor 0,
click count 0) and the persisted store is cleared. -/
theorem C4_expired_or_invalid_cleared :
    (∀ (s : AppState) (now : ℚ),
        loadProgress s (some (.error ())) now = (s, none)) ∧
    (∀ (s : AppState) (now : ℚ) (v : JsonValue),
        jsNonObjectPayload v = true →
        loadProgress s (some (.ok v)) now = (s, none)) ∧
    (∀ (s : AppState) (now : ℚ) (progress : JsonValue),
        jsNonObjectPayload progress = false →
        isExpired now (jsGetField progress "timestamp") = true →
        loadProgress s (some (.ok progress)) now = (s, none)) := by
  refine ⟨fun s now => rfl, fun s now v hv => ?_, fun s now p hp he => ?_⟩
  · simp [loadProgress, hv]
  · simp [loadProgress, hp, he]

/-- Witness for C4: a record stored with `timestamp = now - 8 days`
(timestamp 0, loaded at `now = 8 * 86400000` ms) is expired — the defaults
state is returned unchanged and the store is cleared. -/
theorem C4_witness :
    loadProgress ⟨[], none, [], [], 50, 0, 0⟩
        (some (.ok (.obj [("displayedBlessings", .arr [.str "a"]),
                          ("currentPage", .num 3),
                          ("clickCount", .num 7),
                          ("timestamp", .num 0)])))
        (8 * (1000 * 60 * 60 * 24)) =
      (⟨[], none, [], [], 50, 0, 0⟩, none) :=
  C4_expired_or_invalid_cleared.2.2 _ _ _ rfl
    (by norm_num [isExpired, daysPassedOpt, jsGetField, jsToNumber,
      jsSubFromFinite, jsDivByPos, jsNumberLt])

/-- C5: persistence round-trips.  Loading a record written by `saveProgress`
at any time at most 7 days later restores exactly the saved seen set, page
cursor and click count, whatever the in-memory state was. -/
theorem C5_save_load_round_trip (s t : AppState) (now later : ℚ)
    (hfresh : (later - now) / (1000 * 60 * 60 * 24) ≤ 7)
    (hset : jsSetOfList s.displayedBlessings = s.displayedBlessings) :
    loadProgress t (saveProgress s now) later =
      ({ t with displayedBlessings := s.displayedBlessings,
                currentPage := s.currentPage,
                clickCount := s.clickCount },
       saveProgress s now) := by
  have hnot : ¬((7 : ℚ) < (later - now) / (1000 * 60 * 60 * 24)) :=
    not_lt.mpr hfresh
  simp only [saveProgress, loadProgress, jsGetField_progressJson_timestamp,
    jsGetField_progressJson_displayed, jsGetField_progressJson_currentPage,
    jsGetField_progressJson_clickCount, isExpired, daysPassedOpt, jsToNumber,
    jsSubFromFinite, jsDivByPos, jsNumberLt, restoreSeen, jsFalsy,
    restoreNat_natCast]
  simp [progressJson, jsNonObjectPayload, hnot, hset, restoreNat_natCast]

/-- Witness for C5: a record saved with `displayedBlessings = ["a","b"]` and
timestamp 0, loaded one hour later, restores `SeenSet = {"a","b"}` together
with the page cursor and click count. -/
theorem C5_witness :
    loadProgress ⟨[], none, [], [], 50, 0, 0⟩
        (saveProgress ⟨[.str "a", .str "b"], none, [], [], 50, 1, 4⟩ 0)
        3600000 =
      (⟨[.str "a", .str "b"], none, [], [], 50, 1, 4⟩,
       saveProgress ⟨[.str "a", .str "b"], none, [], [], 50, 1, 4⟩ 0) :=
  C5_save_load_round_trip ⟨[.str "a", .str "b"], none, [], [], 50, 1, 4⟩
    ⟨[], none, [], [], 50, 0, 0⟩ 0 3600000 (by norm_num) rfl

/-- C9: an object record whose timestamp field is missing, or carries a
value whose JS `ToNumber` coercion is NaN (a genuinely non-numeric value —
note that numeric-looking strings such as `"12.5"`, `"-3"` or `"1e3"` DO
coerce and can expire the record), is never discarded by the 7-day expiry
check: `(now - NaN) / day` is NaN and `NaN > 7` is false, so the saved seen
set, page cursor and click count are restored and the store is kept. -/
theorem C9_missing_timestamp_restores (s : AppState) (now : ℚ)
    (fields : List (String × JsonValue)) (seen : List JsonValue) (cp cc : Nat)
    (hts : jsGetField (.obj fields) "timestamp" = none ∨
      (∃ ts : JsonValue, jsGetField (.obj fields) "timestamp" = some ts ∧
        jsToNumber ts = none))
    (hseen : jsGetField (.obj fields) "displayedBlessings" = some (.arr seen))
    (hsetseen : jsSetOfList seen = seen)
    (hcp : jsGetField (.obj fields) "currentPage" = some (.num (cp : ℚ)))
    (hcc : jsGetField (.obj fields) "clickCount" = some (.num (cc : ℚ))) :
    loadProgress s (some (.ok (.obj fields))) now =
      ({ s with displayedBlessings := seen, currentPage := cp,
                clickCount := cc },
       some (.ok (.obj fields))) := by
  have hexp : isExpired now (jsGetField (.obj fields) "timestamp") = false := by
    rcases hts with h | ⟨ts, h, hnan⟩
    · simp [h, isExpired, daysPassedOpt]
    · simp [h, isExpired, daysPassedOpt, hnan]
  simp [loadProgress, jsNonObjectPayload, hexp, hseen, restoreSeen, jsFalsy,
    hsetseen, hcp, hcc, restoreNat_natCast]

/-- Witness for C9: a record with no timestamp field at all, and a record
whose timestamp is the non-numeric string `"abc"` (`Number("abc")` is NaN),
are both restored as-is — seen list `["a","b"]`, cursor 2, click count 5 —
and the store is not cleared. -/
theorem C9_witness :
    (loadProgress ⟨[], none, [], [], 50, 0, 0⟩
        (some (.ok (.obj [("displayedBlessings", .arr [.str "a", .str "b"]),
                          ("currentPage", .num ((2 : Nat) : ℚ)),
                          ("clickCount", .num ((5 : Nat) : ℚ))])))
        123456 =
      (⟨[.str "a", .str "b"], none, [], [], 50, 2, 5⟩,
       some (.ok (.obj [("displayedBlessings", .arr [.str "a", .str "b"]),
                        ("currentPage", .num ((2 : Nat) : ℚ)),
                        ("clickCount", .num ((5 : Nat) : ℚ))])))) ∧
    (loadProgress ⟨[], none, [], [], 50, 0, 0⟩
        (some (.ok (.obj [("displayedBlessings", .arr [.str "a", .str "b"]),
                          ("currentPage", .num ((2 : Nat) : ℚ)),
                          ("clickCount", .num ((5 : Nat) : ℚ)),
                          ("timestamp", .str "abc")])))
        123456 =
      (⟨[.str "a", .str "b"], none, [], [], 50, 2, 5⟩,
       some (.ok (.obj [("displayedBlessings", .arr [.str "a", .str "b"]),
                        ("currentPage", .num ((2 : Nat) : ℚ)),
                        ("clickCount", .num ((5 : Nat) : ℚ)),
                        ("timestamp", .str "abc")])))) :=
  ⟨C9_missing_timestamp_restores ⟨[], none, [], [], 50, 0, 0⟩ 123456 _ _ 2 5
      (Or.inl rfl) rfl rfl rfl rfl,
   C9_missing_timestamp_restores ⟨[], none, [], [], 50, 0, 0⟩ 123456 _ _ 2 5
      (Or.inr ⟨.str "abc", rfl, rfl⟩) rfl rfl rfl rfl⟩

/-- C8: `retryOperation` with `maxRetries = 3` invokes the operation at most
3 times; it returns the first successful result; when every attempt fails
(probe online) it rethrows the error of the final attempt; after a non-final
failure with the reachability probe offline it stops early with the
network-unavailability error; and the delay slept before attempt `k + 1` is
`delay * k`. -/
theorem C8_retry_behaviour {α ε : Type} (op : Nat → Except ε α)
    (online : Nat → Bool) (d : Nat) :
    ((retryOperation op online 3 d).2.1 ≤ 3) ∧
    (∀ a, op 1 = .ok a →
      retryOperation op online 3 d = (.ok a, 1, [])) ∧
    (∀ e1 a, op 1 = .error e1 → online 1 = true → op 2 = .ok a →
      retryOperation op online 3 d = (.ok a, 2, [d * 1])) ∧
    (∀ e1 e2 a, op 1 = .error e1 → online 1 = true → op 2 = .error e2 →
      online 2 = true → op 3 = .ok a →
      retryOperation op online 3 d = (.ok a, 3, [d * 1, d * 2])) ∧
    (∀ e1 e2 e3, op 1 = .error e1 → online 1 = true → op 2 = .error e2 →
      online 2 = true → op 3 = .error e3 →
      retryOperation op online 3 d = (.opError e3, 3, [d * 1, d * 2])) ∧
    (∀ e1, op 1 = .error e1 → online 1 = false →
      retryOperation op online 3 d = (.networkError, 1, [])) ∧
    (∀ e1 e2, op 1 = .error e1 → online 1 = true → op 2 = .error e2 →
      online 2 = false →
      retryOperation op online 3 d = (.networkError, 2, [d * 1])) := by
  refine ⟨?_, ?_, ?_, ?_, ?_, ?_, ?_⟩
  · cases ho1 : op 1 with
    | ok a => simp [retryOperation, retryOperationAux, ho1]
    | error e1 =>
      cases hon1 : online 1 with
      | false => simp [retryOperation, retryOperationAux, ho1, hon1]
      | true =>
        cases ho2 : op 2 with
        | ok a => simp [retryOperation, retryOperationAux, ho1, hon1, ho2]
        | error e2 =>
          cases hon2 : online 2 with
          | false => simp [retryOperation, retryOperationAux, ho1, hon1, ho2, hon2]
          | true =>
            cases ho3 : op 3 with
            | ok a =>
              simp [retryOperation, retryOperationAux, ho1, hon1, ho2, hon2, ho3]
            | error e3 =>
              simp [retryOperation, retryOperationAux, ho1, hon1, ho2, hon2, ho3]
  · intro a h1
    simp [retryOperation, retryOperationAux, h1]
  · intro e1 a h1 hn1 h2
    simp [retryOperation, retryOperationAux, h1, hn1, h2]
  · intro e1 e2 a h1 hn1 h2 hn2 h3
    simp [retryOperation, retryOperationAux, h1, hn1, h2, hn2, h3]
  · intro e1 e2 e3 h1 hn1 h2 hn2 h3
    simp [retryOperation, retryOperationAux, h1, hn1, h2, hn2, h3]
  · intro e1 h1 hn1
    simp [retryOperation, retryOperationAux, h1, hn1]
  · intro e1 e2 h1 hn1 h2 hn2
    simp [retryOperation, retryOperationAux, h1, hn1, h2, hn2]

/-- Witness for C8: an operation failing on the first attempt and succeeding
on the second, with the probe online, yields the success after exactly 2
invocations and a single sleep of `10 * 1` ms. -/
theorem C8_witness :
    retryOperation
        (fun k => if k = 2 then Except.ok 42 else Except.error "boom")
        (fun _ => true) 3 10 =
      (.ok 42, 2, [10 * 1]) :=
  (C8_retry_behaviour
      (fun k => if k = 2 then Except.ok 42 else Except.error "boom")
      (fun _ => true) 10).2.2.1 "boom" 42 rfl rfl rfl

/-- C7 (amended): `loadNextPage` appends exactly the next corpus slice — the
next `pageSize` items starting at `currentPage * pageSize`, capped at the
corpus length — in corpus order, and always advances the page cursor by one;
if the loaded window was the cursor-determined corpus prefix it remains a
prefix; but when the cursor already exhausts the corpus the call is not a
state-preserving no-op: nothing is appended, yet the cursor still advances. -/
theorem C7_loadNextPage_behaviour (s : AppState) :
    ((loadNextPage s).loadedBlessings =
        s.loadedBlessings ++
          (s.allBlessings.drop (s.currentPage * s.pageSize)).take s.pageSize) ∧
    ((loadNextPage s).currentPage = s.currentPage + 1) ∧
    ((loadNextPage s).allBlessings = s.allBlessings) ∧
    ((loadNextPage s).displayedBlessings = s.displayedBlessings) ∧
    (s.loadedBlessings = s.allBlessings.take (s.currentPage * s.pageSize) →
      (loadNextPage s).loadedBlessings =
        s.allBlessings.take ((s.currentPage + 1) * s.pageSize)) ∧
    (s.allBlessings.length ≤ s.currentPage * s.pageSize →
      (loadNextPage s).loadedBlessings = s.loadedBlessings ∧
        (loadNextPage s).currentPage = s.currentPage + 1) := by
  have hslice : (loadNextPage s).loadedBlessings =
      s.loadedBlessings ++
        (s.allBlessings.drop (s.currentPage * s.pageSize)).take s.pageSize := by
    rw [loadNextPage_loadedBlessings]
    congr 1
    rw [List.take_eq_take]
    simp only [List.length_drop]
    omega
  refine ⟨hslice, rfl, rfl, rfl, ?_, ?_⟩
  · intro hpre
    rw [hslice, hpre, ← List.take_add]
    congr 1
    ring
  · intro hexh
    refine ⟨?_, rfl⟩
    rw [hslice, List.drop_eq_nil_of_le hexh]
    simp

/-- Witness for C7: on a one-item corpus with the window equal to the whole
corpus and the cursor at 1, the prefix-preservation branch applies: another
`loadNextPage` appends nothing yet keeps the window the (full) prefix. -/
theorem C7_witness :
    (loadNextPage ⟨[], none, [⟨"a", "c"⟩], [⟨"a", "c"⟩], 50, 1, 0⟩).loadedBlessings =
      ([⟨"a", "c"⟩] : List Blessing).take ((1 + 1) * 50) :=
  (C7_loadNextPage_behaviour ⟨[], none, [⟨"a", "c"⟩], [⟨"a", "c"⟩], 50, 1, 0⟩).2.2.2.2.1
    (by decide)

/-- C7 counterexample: when the cursor already exhausts the corpus
(`currentPage * pageSize = 50 ≥ 1 = |Corpus|`), the call is NOT a no-op:
the page cursor still advances from 1 to 2. -/
theorem C7_counterexample :
    (loadNextPage ⟨[], none, [⟨"a", "c"⟩], [⟨"a", "c"⟩], 50, 1, 0⟩).currentPage ≠
      (⟨[], none, [⟨"a", "c"⟩], [⟨"a", "c"⟩], 50, 1, 0⟩ : AppState).currentPage := by
  decide

/-- Items of the extended window come from the old window or the corpus. -/
theorem loadNextPage_mem (s : AppState) (b : Blessing)
    (hb : b ∈ (loadNextPage s).loadedBlessings) :
    b ∈ s.loadedBlessings ∨ b ∈ s.allBlessings := by
  rw [loadNextPage_loadedBlessings] at hb
  rcases List.mem_append.mp hb with h | h
  · exact Or.inl h
  · exact Or.inr (List.mem_of_mem_drop (List.mem_of_mem_take h))

/-- C1 (amended): when `getRandomUnDisplayedBlessing` returns an item, its
text is not in the seen set, it lies in the resulting loaded window, and —
under the window-subset invariant — it is a corpus item.  The call loads at
most one extra page (the continue-loading recursion of the source is
unreachable), and it returns the exhausted signal (`null`) only when, after
that at most one page-load, the filtered loaded window is empty or the seen
set has at least corpus-many entries.  Contrary to the original claim, it
does not keep loading pages until an unseen item is found, so `null` can be
returned while unseen corpus items remain (see the counterexample). -/
theorem C1_pick_behaviour (s : AppState) (r : Nat) :
    (∀ b, (getRandomUnDisplayedBlessing s r).1 = some b →
        seenHasText s.displayedBlessings b.text = false ∧
        b ∈ (getRandomUnDisplayedBlessing s r).2.loadedBlessings ∧
        ((∀ x ∈ s.loadedBlessings, x ∈ s.allBlessings) → b ∈ s.allBlessings)) ∧
    ((getRandomUnDisplayedBlessing s r).1 = none →
        (getRandomUnDisplayedBlessing s r).2.loadedBlessings.filter
            (fun b => ! seenHasText s.displayedBlessings b.text) = [] ∨
          s.allBlessings.length ≤ s.displayedBlessings.length) ∧
    ((getRandomUnDisplayedBlessing s r).2 = s ∨
      (getRandomUnDisplayedBlessing s r).2 = loadNextPage s) := by
  refine ⟨fun b hb => ?_, pick_none s r, pick_state s r⟩
  obtain ⟨hunseen, hmem⟩ := pick_some_unseen s r b hb
  refine ⟨hunseen, hmem, fun hwin => ?_⟩
  rcases pick_state s r with hst | hst <;> rw [hst] at hmem
  · exact hwin b hmem
  · rcases loadNextPage_mem s b hmem with h | h
    · exact hwin b h
    · exact h

/-- Witness for C1: on a one-page state with item `{"a","c"}` loaded and
nothing seen, the pick returns that item, whose text is unseen and which is
a corpus item. -/
theorem C1_witness :
    seenHasText
        (⟨[], none, [⟨"a", "c"⟩], [⟨"a", "c"⟩], 50, 1, 0⟩ : AppState).displayedBlessings
        (⟨"a", "c"⟩ : Blessing).text = false ∧
      (⟨"a", "c"⟩ : Blessing) ∈
        (getRandomUnDisplayedBlessing
          ⟨[], none, [⟨"a", "c"⟩], [⟨"a", "c"⟩], 50, 1, 0⟩ 0).2.loadedBlessings ∧
      ((∀ x ∈ (⟨[], none, [⟨"a", "c"⟩], [⟨"a", "c"⟩], 50, 1, 0⟩ :
            AppState).loadedBlessings,
          x ∈ (⟨[], none, [⟨"a", "c"⟩], [⟨"a", "c"⟩], 50, 1, 0⟩ :
            AppState).allBlessings) →
        (⟨"a", "c"⟩ : Blessing) ∈
          (⟨[], none, [⟨"a", "c"⟩], [⟨"a", "c"⟩], 50, 1, 0⟩ : AppState).allBlessings) :=
  (C1_pick_behaviour ⟨[], none, [⟨"a", "c"⟩], [⟨"a", "c"⟩], 50, 1, 0⟩ 0).1
    ⟨"a", "c"⟩ (by decide)

/-- A 51-item corpus of pairwise distinct texts `"0" .. "50"`. -/
def c1Corpus : List Blessing :=
  (List.range 51).map (fun i => ⟨toString i, "c"⟩)

/-- The texts of the first 50 items of `c1Corpus`, all marked seen. -/
def c1Seen : List JsonValue :=
  (List.range 50).map (fun i => .str (toString i))

/-- Nothing loaded yet, cursor 0, the whole first 100 indices' worth of
texts (i.e. the first 50 items) seen: the shape `loadProgress` leaves after
restoring a seen set before any page is loaded. -/
def c1State : AppState := ⟨c1Seen, none, c1Corpus, [], 50, 0, 0⟩

/-- C1 counterexample: `getRandomUnDisplayedBlessing` returns the exhausted
signal (`null`) although the seen set is smaller than the corpus and item
`{"50","c"}` is an unseen corpus item: after loading one page (items
0..49, all seen) the filtered window is empty and the function gives up
instead of loading the remaining page. -/
theorem C1_counterexample :
    (getRandomUnDisplayedBlessing c1State 0).1 = none ∧
      c1State.displayedBlessings.length < c1State.allBlessings.length ∧
      (⟨"50", "c"⟩ : Blessing) ∈ c1State.allBlessings ∧
      seenHasText c1State.displayedBlessings "50" = false := by
  refine ⟨?_, ?_, ?_, ?_⟩ <;> decide

/-- C3: `showSpecificBlessing` on a valid corpus position whose item's text
is not yet in the loaded window appends that item to the window, displays it
(it becomes `currentBlessing`), and marks it seen: its text is afterwards a
member of the seen set, so no later pick can return an item with that text;
the page cursor, page size and corpus are left unchanged, so subsequent
`loadNextPage` calls load the same pages as before. -/
theorem C3_selectByIndex (s : AppState) (store : Store) (now : ℚ)
    (index r : Nat) (b : Blessing)
    (hidx : s.allBlessings.get? index = some b)
    (hnew : s.loadedBlessings.any (fun x => x.text == b.text) = false)
    (htext : b.text ≠ "") (hcat : b.category ≠ "") :
    ((showSpecificBlessing s store now index r).1.loadedBlessings =
        s.loadedBlessings ++ [b]) ∧
    ((showSpecificBlessing s store now index r).1.currentBlessing = some b) ∧
    (seenHasText (showSpecificBlessing s store now index r).1.displayedBlessings
        b.text = true) ∧
    ((showSpecificBlessing s store now index r).1.currentPage = s.currentPage) ∧
    ((showSpecificBlessing s store now index r).1.pageSize = s.pageSize) ∧
    ((showSpecificBlessing s store now index r).1.allBlessings = s.allBlessings) ∧
    (∀ r2 b2, (getRandomUnDisplayedBlessing
        (showSpecificBlessing s store now index r).1 r2).1 = some b2 →
      b2.text ≠ b.text) := by
  have hred : (showSpecificBlessing s store now index r).1 =
      { s with
          loadedBlessings := s.loadedBlessings ++ [b],
          currentBlessing := some b,
          displayedBlessings :=
            jsSetAdd (jsSetAdd s.displayedBlessings (.str b.text)) (.num index),
          clickCount := s.clickCount + 1 } := by
    simp only [showSpecificBlessing, hidx, showBlessing]
    rw [if_neg (by push_neg; exact ⟨htext, hcat⟩),
        if_neg (by simpa using hnew)]
  have hhas : seenHasText
      (jsSetAdd (jsSetAdd s.displayedBlessings (.str b.text)) (.num index))
      b.text = true :=
    jsSetHas_jsSetAdd_mono _ _ _
      (jsSetHas_jsSetAdd_self _ _ (jsSameValueZero_str_self b.text))
  rw [hred]
  refine ⟨rfl, rfl, hhas, rfl, rfl, rfl, ?_⟩
  intro r2 b2 h2 heq
  have hu := (pick_some_unseen _ r2 b2 h2).1
  rw [heq] at hu
  have hu2 : seenHasText
      (jsSetAdd (jsSetAdd s.displayedBlessings (.str b.text)) (.num index))
      b.text = false := hu
  rw [hhas] at hu2
  exact Bool.noConfusion hu2

/-- Witness for C3: selecting corpus position 0 (item `{"a","c"}`, not in
the empty loaded window) marks the text `"a"` as seen. -/
theorem C3_witness :
    seenHasText
        (showSpecificBlessing ⟨[], none, [⟨"a", "c"⟩], [], 50, 0, 0⟩
          none 0 0 0).1.displayedBlessings
        "a" = true :=
  (C3_selectByIndex ⟨[], none, [⟨"a", "c"⟩], [], 50, 0, 0⟩ none 0 0 0
      ⟨"a", "c"⟩ rfl rfl (by decide) (by decide)).2.2.1

/-- C10: seen-membership is keyed by item text, so as soon as the shared
text of two distinct corpus items is in the seen set, no pick can return
either of them; and the pick can report exhaustion (`null`) while the seen
set is strictly smaller than the corpus: with corpus
`[{"a","x"}, {"a","y"}]` and only the single text `"a"` seen, the pick
returns `null` although only 1 of 2 items was ever displayed. -/
theorem C10_duplicate_texts :
    (∀ (s : AppState) (r : Nat) (b1 b2 b : Blessing),
        b1 ∈ s.allBlessings → b2 ∈ s.allBlessings → b1.text = b2.text →
        seenHasText s.displayedBlessings b1.text = true →
        (getRandomUnDisplayedBlessing s r).1 = some b →
        b ≠ b1 ∧ b ≠ b2) ∧
    ((getRandomUnDisplayedBlessing
        ⟨[.str "a"], none, [⟨"a", "x"⟩, ⟨"a", "y"⟩],
         [⟨"a", "x"⟩, ⟨"a", "y"⟩], 50, 1, 0⟩ 0).1 = none ∧
      (⟨[.str "a"], none, [⟨"a", "x"⟩, ⟨"a", "y"⟩],
        [⟨"a", "x"⟩, ⟨"a", "y"⟩], 50, 1, 0⟩ : AppState).displayedBlessings.length <
      (⟨[.str "a"], none, [⟨"a", "x"⟩, ⟨"a", "y"⟩],
        [⟨"a", "x"⟩, ⟨"a", "y"⟩], 50, 1, 0⟩ : AppState).allBlessings.length) := by
  constructor
  · intro s r b1 b2 b _hm1 _hm2 htext hseen hpick
    have hu := (pick_some_unseen s r b hpick).1
    constructor
    · rintro rfl
      rw [hu] at hseen
      exact Bool.noConfusion hseen
    · rintro rfl
      rw [htext] at hseen
      rw [hu] at hseen
      exact Bool.noConfusion hseen
  · exact ⟨by decide, by decide⟩

/-- Witness for C10: with corpus `[{"a","x"}, {"a","y"}, {"c","z"}]` and the
shared text `"a"` seen, the pick returns `{"c","z"}`, which is neither of
the two duplicate-text items. -/
theorem C10_witness :
    (⟨"c", "z"⟩ : Blessing) ≠ ⟨"a", "x"⟩ ∧ (⟨"c", "z"⟩ : Blessing) ≠ ⟨"a", "y"⟩ :=
  C10_duplicate_texts.1
    ⟨[.str "a"], none, [⟨"a", "x"⟩, ⟨"a", "y"⟩, ⟨"c", "z"⟩],
     [⟨"a", "x"⟩, ⟨"a", "y"⟩, ⟨"c", "z"⟩], 50, 1, 0⟩ 0
    ⟨"a", "x"⟩ ⟨"a", "y"⟩ ⟨"c", "z"⟩ (by decide) (by decide) rfl
    (by decide) (by decide)

/-- C6 (amended): `reset` clears the seen set and current item, zeroes the
page cursor and then reloads the first page (cursor at 1, window = first
`min(pageSize, |Corpus|)` items), zeroes the click count, clears the
persisted store, and does not reshuffle the corpus.  Afterwards a single
pick can return any item of the freshly loaded first page — no residual
exclusion from the prior session — but, contrary to the original claim, not
any corpus item: items beyond the first page are unreachable by that first
pick when the corpus is larger than one page (see the counterexample). -/
theorem C6_reset_behaviour (s : AppState) (store : Store) :
    ((reset s store).1.displayedBlessings = []) ∧
    ((reset s store).1.currentBlessing = none) ∧
    ((reset s store).1.loadedBlessings = s.allBlessings.take s.pageSize) ∧
    ((reset s store).1.currentPage = 1) ∧
    ((reset s store).1.clickCount = 0) ∧
    ((reset s store).1.allBlessings = s.allBlessings) ∧
    ((reset s store).2 = none) ∧
    (∀ b ∈ s.allBlessings.take s.pageSize,
      ∃ r : Nat, (getRandomUnDisplayedBlessing (reset s store).1 r).1 = some b) := by
  have hload : (reset s store).1.loadedBlessings =
      s.allBlessings.take s.pageSize := by
    show ([] : List Blessing) ++
        (s.allBlessings.drop (0 * s.pageSize)).take
          (min (0 * s.pageSize + s.pageSize) s.allBlessings.length - 0 * s.pageSize) =
      s.allBlessings.take s.pageSize
    simp only [Nat.zero_mul, List.drop_zero, Nat.sub_zero, Nat.zero_add,
      List.nil_append]
    rw [List.take_eq_take]
    omega
  refine ⟨rfl, rfl, hload, rfl, rfl, rfl, rfl, fun b hb => ?_⟩
  refine pick_mem_of_no_seen (reset s store).1 b rfl ?_
  rw [hload]
  exact hb

/-- Witness for C6: after a reset of a session that had seen `"a"`, a single
pick can return the previously seen first-page item `{"a","c"}` again and
can also return the other first-page item `{"b","d"}`. -/
theorem C6_witness :
    (∃ r : Nat, (getRandomUnDisplayedBlessing
        (reset ⟨[.str "a"], some ⟨"a", "c"⟩, [⟨"a", "c"⟩, ⟨"b", "d"⟩],
          [⟨"a", "c"⟩], 50, 1, 3⟩ (some (.error ()))).1 r).1 = some ⟨"a", "c"⟩) ∧
    (∃ r : Nat, (getRandomUnDisplayedBlessing
        (reset ⟨[.str "a"], some ⟨"a", "c"⟩, [⟨"a", "c"⟩, ⟨"b", "d"⟩],
          [⟨"a", "c"⟩], 50, 1, 3⟩ (some (.error ()))).1 r).1 = some ⟨"b", "d"⟩) :=
  ⟨(C6_reset_behaviour ⟨[.str "a"], some ⟨"a", "c"⟩, [⟨"a", "c"⟩, ⟨"b", "d"⟩],
      [⟨"a", "c"⟩], 50, 1, 3⟩ (some (.error ()))).2.2.2.2.2.2.2
    ⟨"a", "c"⟩ (by decide),
   (C6_reset_behaviour ⟨[.str "a"], some ⟨"a", "c"⟩, [⟨"a", "c"⟩, ⟨"b", "d"⟩],
      [⟨"a", "c"⟩], 50, 1, 3⟩ (some (.error ()))).2.2.2.2.2.2.2
    ⟨"b", "d"⟩ (by decide)⟩

/-- A second 51-item corpus of pairwise distinct texts, for the C6
counterexample. -/
def c6Corpus : List Blessing :=
  (List.range 51).map (fun i => ⟨toString i, "c"⟩)

/-- A session state over `c6Corpus` before the reset. -/
def c6State : AppState :=
  ⟨[.str "0"], some ⟨"0", "c"⟩, c6Corpus, [⟨"0", "c"⟩], 50, 1, 3⟩

/-- C6 counterexample: after `reset`, the corpus item `{"50","c"}` (position
50 in shuffled order, i.e. just beyond the 50-item first page) cannot be
returned by a single pick, whatever the random draw — refuting "reset
followed by a single pickUnseen can return any item from Corpus". -/
theorem C6_counterexample :
    (⟨"50", "c"⟩ : Blessing) ∈ (reset c6State none).1.allBlessings ∧
      ¬ ∃ r : Nat, (getRandomUnDisplayedBlessing (reset c6State none).1 r).1 =
          some ⟨"50", "c"⟩ := by
  constructor
  · decide
  · rintro ⟨r, hr⟩
    rw [getRandomUnDisplayedBlessing_eq_one] at hr
    simp only [getRandomUnDisplayedBlessingAux] at hr
    rw [if_neg (by decide), if_neg (by decide)] at hr
    have hm := List.get?_mem (show List.get? _ _ = some _ from hr)
    exact absurd hm (by decide)

/-- The entries the seen set may actually contain (C2, amended): the text of
some corpus item, or a numeric corpus index. -/
def SeenEntriesWF (s : AppState) : Prop :=
  ∀ e ∈ s.displayedBlessings,
    (∃ b ∈ s.allBlessings, e = .str b.text) ∨
    (∃ i : Nat, i < s.allBlessings.length ∧ e = .num i)

/-- The loaded window only contains corpus items. -/
def WindowWF (s : AppState) : Prop :=
  ∀ b ∈ s.loadedBlessings, b ∈ s.allBlessings

theorem mem_jsSetAdd (xs : List JsonValue) (v e : JsonValue)
    (h : e ∈ jsSetAdd xs v) : e ∈ xs ∨ e = v := by
  unfold jsSetAdd at h
  split_ifs at h
  · exact Or.inl h
  · rcases List.mem_append.mp h with h | h
    · exact Or.inl h
    · exact Or.inr (List.mem_singleton.mp h)

theorem loadNextPage_WF (s : AppState)
    (hseen : SeenEntriesWF s) (hwin : WindowWF s) :
    SeenEntriesWF (loadNextPage s) ∧ WindowWF (loadNextPage s) := by
  constructor
  · intro e he
    exact hseen e he
  · intro b hb
    rcases loadNextPage_mem s b hb with h | h
    · exact hwin b h
    · exact h

theorem pick_WF (s : AppState) (r : Nat)
    (hseen : SeenEntriesWF s) (hwin : WindowWF s) :
    SeenEntriesWF (getRandomUnDisplayedBlessing s r).2 ∧
      WindowWF (getRandomUnDisplayedBlessing s r).2 := by
  rcases pick_state s r with h | h <;> rw [h]
  · exact ⟨hseen, hwin⟩
  · exact loadNextPage_WF s hseen hwin

theorem showBlessing_WF (s : AppState) (store : Store) (now : ℚ)
    (specific : Option Blessing) (r : Nat)
    (hseen : SeenEntriesWF s) (hwin : WindowWF s)
    (hspec : ∀ b, specific = some b → b ∈ s.allBlessings) :
    SeenEntriesWF (showBlessing s store now specific r).1 ∧
      WindowWF (showBlessing s store now specific r).1 ∧
      (showBlessing s store now specific r).1.allBlessings = s.allBlessings := by
  cases specific with
  | some b =>
    simp only [showBlessing]
    by_cases hv : b.text = "" ∨ b.category = ""
    · rw [if_pos hv]
      exact ⟨hseen, hwin, rfl⟩
    · rw [if_neg hv]
      refine ⟨?_, hwin, rfl⟩
      intro e he
      rcases mem_jsSetAdd _ _ _ he with h | h
      · exact hseen e h
      · exact Or.inl ⟨b, hspec b rfl, h⟩
  | none =>
    have hs1 := pick_WF s r hseen hwin
    have hall := pick_allBlessings s r
    simp only [showBlessing]
    rcases hpk : getRandomUnDisplayedBlessing s r with ⟨bOpt, s1⟩
    rw [hpk] at hs1 hall
    cases bOpt with
    | none => exact ⟨hs1.1, hs1.2, hall⟩
    | some b =>
      have hbmem : b ∈ s1.loadedBlessings := by
        have hm := (pick_some_unseen s r b (by rw [hpk])).2
        rwa [hpk] at hm
      dsimp only
      by_cases hv : b.text = "" ∨ b.category = ""
      · rw [if_pos hv]
        exact ⟨hs1.1, hs1.2, hall⟩
      · rw [if_neg hv]
        refine ⟨?_, hs1.2, hall⟩
        intro e he
        rcases mem_jsSetAdd _ _ _ he with h | h
        · exact hs1.1 e h
        · exact Or.inl ⟨b, hs1.2 b hbmem, h⟩

theorem addIndex_WF (t : AppState) (index : Nat)
    (hS : SeenEntriesWF t) (hW : WindowWF t)
    (hlt : index < t.allBlessings.length) :
    SeenEntriesWF
        { t with displayedBlessings := jsSetAdd t.displayedBlessings (.num index) } ∧
      WindowWF
        { t with displayedBlessings := jsSetAdd t.displayedBlessings (.num index) } := by
  constructor
  · intro e he
    rcases mem_jsSetAdd _ _ _ he with h | h
    · exact hS e h
    · exact Or.inr ⟨index, hlt, h⟩
  · exact hW

/-- C2 (amended): the invariant that actually holds is
`SeenSet ⊆ Corpus-texts ∪ Corpus-indices`: every element inserted into
`displayedBlessings` by `showBlessing` is the text of a corpus item, but
`showSpecificBlessing` additionally inserts the numeric corpus index, not a
text.  Under the loaded-window ⊆ corpus invariant, every operation preserves
this weaker invariant; the original text-only invariant is refuted by the
counterexample. -/
theorem C2_seen_entries_amended (s : AppState) (store : Store) (now : ℚ)
    (hseen : SeenEntriesWF s) (hwin : WindowWF s) :
    (∀ r, SeenEntriesWF (getRandomUnDisplayedBlessing s r).2 ∧
        WindowWF (getRandomUnDisplayedBlessing s r).2) ∧
    (SeenEntriesWF (loadNextPage s) ∧ WindowWF (loadNextPage s)) ∧
    (∀ specific r, (∀ b, specific = some b → b ∈ s.allBlessings) →
        SeenEntriesWF (showBlessing s store now specific r).1 ∧
        WindowWF (showBlessing s store now specific r).1) ∧
    (∀ index r, SeenEntriesWF (showSpecificBlessing s store now index r).1 ∧
        WindowWF (showSpecificBlessing s store now index r).1) ∧
    (SeenEntriesWF (reset s store).1 ∧ WindowWF (reset s store).1) := by
  refine ⟨fun r => pick_WF s r hseen hwin, loadNextPage_WF s hseen hwin,
    fun specific r hspec =>
      ⟨(showBlessing_WF s store now specific r hseen hwin hspec).1,
       (showBlessing_WF s store now specific r hseen hwin hspec).2.1⟩,
    fun index r => ?_, ?_⟩
  · simp only [showSpecificBlessing]
    cases hidx : s.allBlessings.get? index with
    | none => exact ⟨hseen, hwin⟩
    | some blessing =>
      have hbmem : blessing ∈ s.allBlessings := List.get?_mem hidx
      have hlt : index < s.allBlessings.length := by
        rcases List.get?_eq_some.mp hidx with ⟨h, _⟩
        exact h
      dsimp only
      split_ifs with hany
      · obtain ⟨hS, hW, hA⟩ := showBlessing_WF s store now (some blessing) r
          hseen hwin (fun b2 hb2 => by injection hb2 with h; rw [← h]; exact hbmem)
        exact addIndex_WF _ index hS hW (by rw [hA]; exact hlt)
      · have hseen1 : SeenEntriesWF
            { s with loadedBlessings := s.loadedBlessings ++ [blessing] } := hseen
        have hwin1 : WindowWF
            { s with loadedBlessings := s.loadedBlessings ++ [blessing] } := by
          intro b2 hb2
          rcases List.mem_append.mp hb2 with h | h
          · exact hwin b2 h
          · rw [List.mem_singleton.mp h]
            exact hbmem
        obtain ⟨hS, hW, hA⟩ := showBlessing_WF
          { s with loadedBlessings := s.loadedBlessings ++ [blessing] }
          store now (some blessing) r hseen1 hwin1
          (fun b2 hb2 => by injection hb2 with h; rw [← h]; exact hbmem)
        exact addIndex_WF _ index hS hW (by rw [hA]; exact hlt)
  · refine ⟨?_, ?_⟩
    · intro e he
      cases he
    · intro b hb
      have hb2 : b ∈ (loadNextPage
          { s with displayedBlessings := [], currentBlessing := none,
                   loadedBlessings := [], currentPage := 0 }).loadedBlessings := hb
      rcases loadNextPage_mem _ b hb2 with h | h
      · cases h
      · exact h

/-- C2 counterexample: `showSpecificBlessing 0` inserts the numeric index
`0` into the seen set — an element that is not the text of any corpus item
(it is not a string at all), refuting `SeenSet ⊆ Corpus` as texts. -/
theorem C2_counterexample :
    JsonValue.num 0 ∈
        (showSpecificBlessing ⟨[], none, [⟨"a", "c"⟩], [], 50, 0, 0⟩
          none 0 0 0).1.displayedBlessings ∧
      ∀ b ∈ (⟨[], none, [⟨"a", "c"⟩], [], 50, 0, 0⟩ : AppState).allBlessings,
        JsonValue.num 0 ≠ JsonValue.str b.text := by
  constructor
  · show JsonValue.num 0 ∈ [JsonValue.str "a", JsonValue.num 0]
    simp
  · intro b _ h
    exact JsonValue.noConfusion h

/-- Witness for C2: starting from an empty well-formed state, `reset`
preserves the amended invariant. -/
theorem C2_witness :
    SeenEntriesWF (reset ⟨[], none, [⟨"a", "c"⟩], [], 50, 0, 0⟩ none).1 ∧
      WindowWF (reset ⟨[], none, [⟨"a", "c"⟩], [], 50, 0, 0⟩ none).1 :=
  (C2_seen_entries_amended ⟨[], none, [⟨"a", "c"⟩], [], 50, 0, 0⟩ none 0
    (fun e he => absurd he (List.not_mem_nil e))
    (fun b hb => absurd hb (List.not_mem_nil b))).2.2.2.2
